import Mathlib

/-!
Shallow embedding of the cross-chain balance aggregation and rebalancing engine
of the privacy-treasury-ai repository, together with proofs about the spec
claims.  Numeric values are modelled as rationals; the JavaScript special
values NaN/Infinity, which arise from division by zero, are modelled
explicitly by the `JsNum` type.  Effectful decorations of the source (console
logging, timestamps, random ids) are omitted; ids and timestamps that appear
in returned records are taken as parameters.
-/

namespace PrivacyTreasury

/-- JavaScript IEEE-double arithmetic restricted to the operations the source
performs on portfolio data: exact rational values plus the special values
`NaN`, `+Infinity` and `-Infinity` produced by division by zero. -/
inductive JsNum where
  | num : ℚ → JsNum
  | nan : JsNum
  | posInf : JsNum
  | negInf : JsNum
deriving DecidableEq, Repr

/-- JavaScript division of two finite doubles: `0/0 = NaN`, `x/0 = ±Infinity`
for `x ≠ 0`, otherwise the exact quotient. -/
def jsDiv (a b : ℚ) : JsNum :=
  if b = 0 then
    if a = 0 then JsNum.nan
    else if 0 < a then JsNum.posInf
    else JsNum.negInf
  else JsNum.num (a / b)

/-- JavaScript multiplication by the positive literal `100`
(`NaN * 100 = NaN`, `±Infinity * 100 = ±Infinity`). -/
def jsMul100 : JsNum → JsNum
  | JsNum.num q => JsNum.num (q * 100)
  | JsNum.nan => JsNum.nan
  | JsNum.posInf => JsNum.posInf
  | JsNum.negInf => JsNum.negInf

/-- JavaScript addition on possibly non-finite doubles. -/
def jsAdd : JsNum → JsNum → JsNum
  | JsNum.nan, _ => JsNum.nan
  | _, JsNum.nan => JsNum.nan
  | JsNum.posInf, JsNum.negInf => JsNum.nan
  | JsNum.negInf, JsNum.posInf => JsNum.nan
  | JsNum.posInf, _ => JsNum.posInf
  | _, JsNum.posInf => JsNum.posInf
  | JsNum.negInf, _ => JsNum.negInf
  | _, JsNum.negInf => JsNum.negInf
  | JsNum.num a, JsNum.num b => JsNum.num (a + b)

/-- Sum of a list of JavaScript numbers, starting from `0` as the source
accumulators do. -/
def jsSum (l : List JsNum) : JsNum := l.foldl jsAdd (JsNum.num 0)

/-! ## CrossChainOrchestrator data model (src/unnamed/part_012) -/

/-- Embeds `CrossChainAsset` interface: one per-chain holding.  The chain union type
is modelled by its string value. -/
structure CrossChainAsset where
  symbol : String
  amount : ℚ
  valueUSD : ℚ
  chain : String
  contractAddress : String
  decimals : ℕ
deriving DecidableEq, Repr

/-- One entry of an aggregated asset chain breakdown
(`{chain, amount, valueUSD}` pushed onto `existing.chains`). -/
structure ChainHolding where
  chain : String
  amount : ℚ
  valueUSD : ℚ
deriving DecidableEq, Repr

/-- The per-symbol record held in the `aggregated` map during the first pass
of `aggregateBalances` (before `diversificationScore` and
`percentageOfPortfolio` are filled in; the placeholder `diversificationScore:
0` of the source is left out because the second pass overwrites it). -/
structure AggGroup where
  symbol : String
  totalAmount : ℚ
  totalValueUSD : ℚ
  chains : List ChainHolding
deriving DecidableEq, Repr

/-- A fully decorated aggregated asset as emitted by `aggregateBalances`. -/
structure AggregatedAsset where
  symbol : String
  totalAmount : ℚ
  totalValueUSD : ℚ
  chains : List ChainHolding
  diversificationScore : ℚ
  percentageOfPortfolio : JsNum
deriving DecidableEq, Repr

/-- The record returned by `aggregateBalances`. -/
structure AggregationResult where
  totalValueUSD : ℚ
  uniqueAssets : ℕ
  chainsUsed : ℕ
  aggregatedAssets : List AggregatedAsset
  diversificationRating : String
deriving DecidableEq, Repr

/-- The chain-breakdown entry contributed by one input asset. -/
def holdingOf (a : CrossChainAsset) : ChainHolding :=
  { chain := a.chain, amount := a.amount, valueUSD := a.valueUSD }

/-- The fresh map entry created for a first-seen symbol
(`aggregated.set(key, {...})`). -/
def mkGroup (a : CrossChainAsset) : AggGroup :=
  { symbol := a.symbol
    totalAmount := a.amount
    totalValueUSD := a.valueUSD
    chains := [holdingOf a] }

/-- The in-place update applied to an existing map entry
(`existing.totalAmount += ...; existing.chains.push(...)`). -/
def updGroup (g : AggGroup) (a : CrossChainAsset) : AggGroup :=
  { g with
    totalAmount := g.totalAmount + a.amount
    totalValueUSD := g.totalValueUSD + a.valueUSD
    chains := g.chains ++ [holdingOf a] }

/-- One step of the grouping loop of `aggregateBalances`: a JavaScript `Map`
keyed by symbol updates the (unique) entry with the asset symbol in place,
preserving its position, and otherwise appends a fresh entry at the end
(`Map` iteration order is insertion order). -/
def addToGroup (a : CrossChainAsset) : List AggGroup → List AggGroup
  | [] => [mkGroup a]
  | g :: gs =>
    if g.symbol = a.symbol then updGroup g a :: gs
    else g :: addToGroup a gs

/-- The grouping pass of `aggregateBalances` over the input assets, in input
order. -/
def aggGroups (assets : List CrossChainAsset) : List AggGroup :=
  assets.foldl (fun gs a => addToGroup a gs) []

/-- Embeds `this.chains.size` of the orchestrator: `initializeChains` registers
exactly ethereum, polygon, arbitrum and bsc. -/
def orchestratorChainCount : ℕ := 4

/-- The names registered in the orchestrator `chains`/`providers` maps, in
registration order (note: solana is not registered). -/
def orchestratorConfiguredChains : List String :=
  ["ethereum", "polygon", "arbitrum", "bsc"]

/-- Number of distinct chains among the inputs
(`new Set(assets.map(a => a.chain)).size`). -/
def chainsUsedCount (assets : List CrossChainAsset) : ℕ :=
  (assets.map (fun a => a.chain)).dedup.length

/-- The second pass of `aggregateBalances` over one map entry: fills in
`diversificationScore = chains.length / this.chains.size` and
`percentageOfPortfolio = totalValueUSD / total * 100` (JavaScript division,
so `NaN` when `total = 0`). -/
def decorateGroup (total : ℚ) (g : AggGroup) : AggregatedAsset :=
  { symbol := g.symbol
    totalAmount := g.totalAmount
    totalValueUSD := g.totalValueUSD
    chains := g.chains
    diversificationScore := (g.chains.length : ℚ) / (orchestratorChainCount : ℚ)
    percentageOfPortfolio := jsMul100 (jsDiv g.totalValueUSD total) }

/-- Embeds `CrossChainOrchestrator.aggregateBalances`: groups the input assets by
symbol, sums amounts and USD values, then decorates each group. -/
def aggregateBalances (assets : List CrossChainAsset) : AggregationResult :=
  let groups := aggGroups assets
  let total := assets.foldl (fun s a => s + a.valueUSD) 0
  { totalValueUSD := total
    uniqueAssets := groups.length
    chainsUsed := chainsUsedCount assets
    aggregatedAssets := groups.map (decorateGroup total)
    diversificationRating :=
      if groups.length > 5 then "High"
      else if groups.length > 3 then "Medium"
      else "Low" }

/-! ## TreasuryAgent data model (src/src/TreasuryAgent.ts) -/

/-- The `Asset` interface of the agent: `percentage` is optional. -/
structure Asset where
  symbol : String
  amount : ℚ
  valueUSD : ℚ
  percentage : Option ℚ
deriving DecidableEq, Repr

/-- Embeds `AssetInput = Asset | Partial<Asset> & { symbol: string }`: every field
but the symbol may be absent. -/
structure AssetInput where
  symbol : String
  amount : Option ℚ
  valueUSD : Option ℚ
  percentage : Option ℚ
deriving DecidableEq, Repr

/-- Embeds `normalizeAssetInputs`: missing `amount`/`valueUSD` default to 0
(`??` nullish coalescing), `percentage` is passed through. -/
def normalizeAssetInputs (assets : List AssetInput) : List Asset :=
  assets.map (fun a =>
    { symbol := a.symbol
      amount := a.amount.getD 0
      valueUSD := a.valueUSD.getD 0
      percentage := a.percentage })

/-- Embeds `assets.reduce((sum, asset) => sum + asset.valueUSD, 0)`. -/
def sumValueUSD (assets : List Asset) : ℚ :=
  assets.foldl (fun s a => s + a.valueUSD) 0

/-- Embeds `TreasuryAgent.ensurePercentages`: with a positive total, missing
percentages are backfilled proportionally (`??` keeps provided values, even
0); with a non-positive total, the list is returned unchanged when every
percentage is provided, and otherwise missing percentages get the equal share
`100 / assets.length`. -/
def ensurePercentages (assets : List Asset) : List Asset :=
  let totalValue := sumValueUSD assets
  if 0 < totalValue then
    assets.map (fun a =>
      { a with percentage := some (a.percentage.getD ((a.valueUSD / totalValue) * 100)) })
  else if assets.all (fun a => a.percentage.isSome) then
    assets
  else
    let defaultPercentage : ℚ := if assets.length > 0 then 100 / (assets.length : ℚ) else 0
    assets.map (fun a =>
      { a with percentage := some (a.percentage.getD defaultPercentage) })

/-- Embeds `asset.percentage || 0`: the JavaScript falsy default, which coincides
with `?? 0` because both `undefined` and `0` yield `0`. -/
def percOr0 (a : Asset) : ℚ := a.percentage.getD 0

/-- Embeds `Math.max(...)` over a list of doubles: `none` models the `-Infinity`
result on the empty list. -/
def jsMaxQ (l : List ℚ) : Option ℚ :=
  l.foldl (fun acc x =>
    match acc with
    | none => some x
    | some m => some (max m x)) none

/-- Embeds `s.includes(pat)` for the non-empty patterns used by the source. -/
def strIncludes (s pat : String) : Bool :=
  (s.splitOn pat).length != 1

/-- Embeds `TreasuryAgent.calculateRiskScore`.  `Math.max` of an empty spread is
`-Infinity`, for which both threshold comparisons are false, hence the
`none => 0` branch. -/
def calculateRiskScore (assets : List Asset) : ℚ :=
  let concentrationRisk : ℚ :=
    match jsMaxQ (assets.map percOr0) with
    | none => 0
    | some m => if m > 50 then 40 else if m > 30 then 20 else 0
  let diversificationBonus : ℚ :=
    if assets.length > 5 then -10 else if assets.length > 3 then -5 else 0
  let stableCoinRatio : ℚ :=
    (assets.filter (fun a => strIncludes a.symbol "USD")).foldl
      (fun s a => s + percOr0 a) 0
  let stabilityBonus : ℚ := if stableCoinRatio > 20 then -15 else 0
  max 0 (min 100 (50 + concentrationRisk + diversificationBonus + stabilityBonus))

/-- Embeds `TreasuryAgent.calculateDiversificationScore`.  On the empty list,
`balance = 100 - Math.max(...) = +Infinity` and `Math.min(+Infinity, 40) =
40`, hence the `none => 40` branch. -/
def calculateDiversificationScore (assets : List Asset) : ℚ :=
  let countBonus : ℚ := min ((assets.length : ℚ) * 10) 40
  let balanceBonus : ℚ :=
    match jsMaxQ (assets.map percOr0) with
    | none => 40
    | some m => min (100 - m) 40
  max 0 (min 100 (20 + countBonus + balanceBonus))

/-- Embeds `TreasuryAgent.generateRecommendations`. -/
def generateRecommendations (assets : List Asset)
    (riskScore diversificationScore : ℚ) : List String :=
  let recs1 : List String :=
    if riskScore > 70 then
      ["⚠️ High risk detected: Consider reducing exposure to volatile assets",
       "💰 Increase stable coin allocation to reduce portfolio volatility"]
    else if riskScore < 30 then
      ["📈 Low risk portfolio: Consider opportunities for higher yield"]
    else []
  let recs2 : List String :=
    if diversificationScore < 40 then
      ["🎯 Poor diversification: Add more assets to spread risk",
       "⚖️ Consider balanced allocation across different asset classes"]
    else if diversificationScore > 80 then
      ["✨ Excellent diversification: Portfolio is well-balanced"]
    else []
  let recs3 : List String :=
    match assets.find? (fun a => a.symbol = "ETH") with
    | some ethAsset =>
      match ethAsset.percentage with
      | some p =>
        if p ≠ 0 ∧ p > 60 then
          ["🔸 ETH concentration risk: Consider reducing ETH allocation below 50%"]
        else []
      | none => []
    | none => []
  let stableCoins := assets.filter
    (fun a => strIncludes a.symbol "USD" || strIncludes a.symbol "DAI")
  let stableRatio := stableCoins.foldl (fun s a => s + percOr0 a) 0
  let recs4 : List String :=
    if stableRatio < 10 then
      ["🛡️ Low stable coin ratio: Consider increasing for risk management"]
    else []
  let recs := recs1 ++ recs2 ++ recs3 ++ recs4
  if recs.isEmpty then
    ["✅ Portfolio looks healthy: Continue monitoring and periodic rebalancing"]
  else recs

/-- Embeds `Array.prototype.reduce` without an initial value: throws a `TypeError`
on the empty array, otherwise folds from the first element. -/
def reduceNoInit (f : Asset → Asset → Asset) : List Asset → Except String Asset
  | [] => Except.error "Reduce of empty array with no initial value"
  | a :: as => Except.ok (as.foldl f a)

/-- Rendering of `p.toFixed(1)` used only inside an alert string; the exact
IEEE rounding is immaterial to every claim, so round-half-up at one decimal
is used. -/
def toFixedOne (q : ℚ) : String :=
  let n : ℤ := ⌊q * 10 + 1 / 2⌋
  toString (n / 10) ++ "." ++ toString (n % 10)

/-- Embeds `TreasuryAgent.identifyAlerts`: the maximal-percentage asset is found by
a `reduce` with no initial value, which throws on an empty asset list.
Truthiness guards (`a.percentage && ...`) require the percentage to be
present and non-zero. -/
def identifyAlerts (assets : List Asset) : Except String (List String) :=
  match reduceNoInit (fun mx a => if percOr0 a > percOr0 mx then a else mx) assets with
  | Except.error e => Except.error e
  | Except.ok maxAsset =>
    let alerts1 : List String :=
      match maxAsset.percentage with
      | some p =>
        if p ≠ 0 ∧ p > 70 then
          ["🚨 CRITICAL: " ++ maxAsset.symbol ++ " represents " ++
            toFixedOne p ++ "% of portfolio"]
        else []
      | none => []
    let smallAllocations := assets.filter (fun a =>
      match a.percentage with
      | some p => decide (p ≠ 0) && decide (p < 5)
      | none => false)
    let alerts2 : List String :=
      if smallAllocations.length > 3 then
        ["⚠️ Multiple small positions detected: Consider consolidation"]
      else []
    Except.ok (alerts1 ++ alerts2)

/-- The `PortfolioAnalysis` record (the effectful `timestamp` field is
omitted). -/
structure PortfolioAnalysis where
  totalValueUSD : ℚ
  assets : List Asset
  riskScore : ℚ
  diversificationScore : ℚ
  recommendations : List String
  alerts : List String
deriving DecidableEq, Repr

/-- Embeds `TreasuryAgent.analyzePortfolio`: normalization, percentage backfill,
scoring, recommendations, then alert identification — whose `reduce` throw on
an empty list aborts the whole call. -/
def analyzePortfolio (assets : List AssetInput) : Except String PortfolioAnalysis :=
  let normalizedAssets := normalizeAssetInputs assets
  let assetsWithPercentage := ensurePercentages normalizedAssets
  let totalValueUSD := sumValueUSD assetsWithPercentage
  let riskScore := calculateRiskScore assetsWithPercentage
  let diversificationScore := calculateDiversificationScore assetsWithPercentage
  let recommendations :=
    generateRecommendations assetsWithPercentage riskScore diversificationScore
  match identifyAlerts assetsWithPercentage with
  | Except.error e => Except.error e
  | Except.ok alerts =>
    Except.ok
      { totalValueUSD := totalValueUSD
        assets := assetsWithPercentage
        riskScore := riskScore
        diversificationScore := diversificationScore
        recommendations := recommendations
        alerts := alerts }

/-- One target entry of `simulateRebalancing`. -/
structure TargetAllocation where
  symbol : String
  targetPercentage : ℚ
deriving DecidableEq, Repr

/-- One entry of the `proposedChanges` list of `simulateRebalancing`. -/
structure RebalanceChange where
  symbol : String
  currentValue : ℚ
  targetValue : ℚ
  difference : ℚ
  amountUSD : ℚ
  action : String
deriving DecidableEq, Repr

/-- The `changes` computation of `TreasuryAgent.simulateRebalancing`:
`currentValue = currentAsset?.valueUSD || 0` (0 when the symbol is absent),
`targetValue = totalValue * pct / 100`, and the BUY/SELL/HOLD rule against
the fixed absolute threshold 10. -/
def simulateChanges (currentPortfolio : List AssetInput)
    (targetAllocation : List TargetAllocation) : List RebalanceChange :=
  let portfolio := normalizeAssetInputs currentPortfolio
  let totalValue := sumValueUSD portfolio
  targetAllocation.map (fun target =>
    let currentValue : ℚ :=
      match portfolio.find? (fun a => a.symbol = target.symbol) with
      | some a => a.valueUSD
      | none => 0
    let targetValue := totalValue * (target.targetPercentage / 100)
    let difference := targetValue - currentValue
    { symbol := target.symbol
      currentValue := currentValue
      targetValue := targetValue
      difference := difference
      amountUSD := |difference|
      action :=
        if difference > 10 then "BUY"
        else if difference < -10 then "SELL"
        else "HOLD" })

/-! ## CrossChainOrchestrator rebalancing and bridging (src/unnamed/part_012) -/

/-- Embeds `selectOptimalChain`: the final heuristic of the source is
`action === 'buy' && asset === 'ETH' ? 'ethereum' : 'polygon'`. -/
def selectOptimalChain (asset action : String) : String :=
  if action = "buy" ∧ asset = "ETH" then "ethereum" else "polygon"

/-- One entry of the `rebalanceOperations` list of `rebalanceAcrossChains`. -/
structure RebalanceOp where
  asset : String
  currentValue : ℚ
  targetValue : ℚ
  difference : ℚ
  action : String
  amount : ℚ
  recommendedChain : String
  estimatedFees : ℚ
deriving DecidableEq, Repr

/-- One iteration of the `targetAllocation.forEach` loop of
`CrossChainOrchestrator.rebalanceAcrossChains`: the symbol is skipped entirely
when absent from the aggregated portfolio (`if (!currentAsset) return`), and
an operation is pushed only when `|difference|` exceeds the relative threshold
`totalValueUSD * 0.01`. -/
def rebalanceStep (aggregated : AggregationResult) (ops : List RebalanceOp)
    (entry : String × ℚ) : List RebalanceOp :=
  match aggregated.aggregatedAssets.find? (fun a => a.symbol = entry.1) with
  | none => ops
  | some currentAsset =>
    let targetValueUSD := (entry.2 / 100) * aggregated.totalValueUSD
    let difference := targetValueUSD - currentAsset.totalValueUSD
    if |difference| > aggregated.totalValueUSD * (1 / 100) then
      ops ++ [{ asset := entry.1
                currentValue := currentAsset.totalValueUSD
                targetValue := targetValueUSD
                difference := difference
                action := if difference > 0 then "buy" else "sell"
                amount := |difference|
                recommendedChain :=
                  selectOptimalChain entry.1 (if difference > 0 then "buy" else "sell")
                estimatedFees := |difference| * (3 / 1000) }]
    else ops

/-- The operations list built by `CrossChainOrchestrator.rebalanceAcrossChains`
over the target allocation (a `Map`, iterated in insertion order). -/
def rebalanceOps (currentAssets : List CrossChainAsset)
    (targetAllocation : List (String × ℚ)) : List RebalanceOp :=
  targetAllocation.foldl (rebalanceStep (aggregateBalances currentAssets)) []

/-- Embeds `getNetworkFee` lookup table with its `|| 5` fallback (no table value is
falsy, so the fallback fires exactly on unknown chains). -/
def getNetworkFee (chain : String) : ℚ :=
  if chain = "ethereum" then 25
  else if chain = "polygon" then 1 / 2
  else if chain = "arbitrum" then 3
  else if chain = "solana" then 1 / 1000
  else if chain = "bsc" then 1 / 10
  else 5

/-- Embeds `getGasFee` lookup table with its `|| 10` fallback. -/
def getGasFee (chain : String) : ℚ :=
  if chain = "ethereum" then 50
  else if chain = "polygon" then 2
  else if chain = "arbitrum" then 8
  else if chain = "solana" then 1 / 200
  else if chain = "bsc" then 1
  else 10

/-- The `fees` record of a `BridgeOperation`. -/
structure BridgeFees where
  networkFee : ℚ
  bridgeFee : ℚ
  gasFee : ℚ
  total : ℚ
deriving DecidableEq, Repr

/-- Embeds `calculateBridgeFees`: 0.1% bridge fee on the amount plus per-source-chain
network and gas fees. -/
def calculateBridgeFees (fromChain : String) (amount : ℚ) : BridgeFees :=
  let baseFee := amount * (1 / 1000)
  let networkFee := getNetworkFee fromChain
  let gasFee := getGasFee fromChain
  { networkFee := networkFee
    bridgeFee := baseFee
    gasFee := gasFee
    total := networkFee + baseFee + gasFee }

/-- Embeds `getEstimatedBridgeTime`. -/
def getEstimatedBridgeTime (fromChain toChain : String) : String :=
  if fromChain = "ethereum" ∨ toChain = "ethereum" then "10-15 minutes"
  else if fromChain = "solana" ∨ toChain = "solana" then "5-8 minutes"
  else "3-7 minutes"

/-- The `status` union of a `BridgeOperation`. -/
inductive BridgeStatus where
  | pending
  | inProgress
  | completed
  | failed
deriving DecidableEq, Repr

/-- The string literal each status stands for in the source. -/
def statusLiteral : BridgeStatus → String
  | BridgeStatus.pending => "pending"
  | BridgeStatus.inProgress => "in-progress"
  | BridgeStatus.completed => "completed"
  | BridgeStatus.failed => "failed"

/-- The orchestrator `BridgeOperation` record. -/
structure BridgeOperation where
  id : String
  fromChain : String
  toChain : String
  asset : String
  amount : ℚ
  estimatedTime : String
  fees : BridgeFees
  status : BridgeStatus
  transactionHash : Option String
deriving DecidableEq, Repr

/-- Embeds `CrossChainOrchestrator.initiateBridge` up to its synchronous return: the
bridge id (built from `Date.now()` and `Math.random()`) is a parameter.  The
body contains no configuration check and no throw statement, so the function
is total: it returns a PENDING operation for every pair of chain names. -/
def initiateBridgeO (bridgeId fromChain toChain asset : String) (amount : ℚ) :
    BridgeOperation :=
  { id := bridgeId
    fromChain := fromChain
    toChain := toChain
    asset := asset
    amount := amount
    estimatedTime := getEstimatedBridgeTime fromChain toChain
    fees := calculateBridgeFees fromChain amount
    status := BridgeStatus.pending
    transactionHash := none }

/-- The value of the returned operation `status` field along the simulated
timer progression of `initiateBridge`: phase 0 is the synchronous return
(PENDING), phase 1 is after the 2-second `setTimeout` (IN_PROGRESS, and the
transaction hash is set), phase 2 and later are after the nested 30-second
`setTimeout` (COMPLETED; the simulation never produces FAILED). -/
def bridgeStatusAtPhase : ℕ → BridgeStatus
  | 0 => BridgeStatus.pending
  | 1 => BridgeStatus.inProgress
  | _ + 2 => BridgeStatus.completed

/-- The transitions the bridge lifecycle may take between consecutive
observation phases: stutter, dispatch, or settle. -/
def allowedBridgeStep (s t : BridgeStatus) : Prop :=
  s = t ∨
  (s = BridgeStatus.pending ∧ t = BridgeStatus.inProgress) ∨
  (s = BridgeStatus.inProgress ∧
    (t = BridgeStatus.completed ∨ t = BridgeStatus.failed))

/-- Terminal bridge statuses. -/
def isTerminalStatus (s : BridgeStatus) : Prop :=
  s = BridgeStatus.completed ∨ s = BridgeStatus.failed

/-! ## CrossChainService (src/src/services/CrossChainService.ts) -/

/-- One value of the record returned by
`CrossChainService.getMultiChainBalance`: the native holding is
`{symbol, amount}`, tokens are `{symbol, amount}` pairs, and a failed chain
gets `{ native: null, tokens: [], error: ... }`. -/
structure ChainBalances where
  native : Option (String × ℚ)
  tokens : List (String × ℚ)
  error : Option String
deriving DecidableEq, Repr

/-- The entry written for one chain by `getMultiChainBalance`: the per-chain
`try`/`catch` maps the outcome of that chain fetch (native balance and token
balances, or a failure) to its slot, independently of every other chain.
`nativeCur` models `this.chains.get(chain)?.nativeCurrency` with the
`|| 'NATIVE'` fallback. -/
def chainBalanceEntry (nativeCur : String → Option String)
    (fetch : String → Except String (ℚ × List (String × ℚ)))
    (chain : String) : ChainBalances :=
  match fetch chain with
  | Except.ok r =>
    { native := some ((nativeCur chain).getD "NATIVE", r.1)
      tokens := r.2
      error := none }
  | Except.error _ =>
    { native := none, tokens := [], error := some "Failed to fetch balances" }

/-- Embeds `CrossChainService.getMultiChainBalance`: one slot per configured chain,
filled from an independent fetch per chain (`Promise.all` over per-chain
tasks whose failures are caught individually); the result is modelled as the
chain-indexed association list, the per-chain map the source builds. -/
def getMultiChainBalanceS (chains : List String)
    (nativeCur : String → Option String)
    (fetch : String → Except String (ℚ × List (String × ℚ))) :
    List (String × ChainBalances) :=
  chains.map (fun c => (c, chainBalanceEntry nativeCur fetch c))

/-- The parameter record of `CrossChainService.initiateBridge`. -/
structure BridgeParams where
  fromChain : String
  toChain : String
  asset : String
  amount : ℚ
  recipient : String
deriving DecidableEq, Repr

/-- The `BridgeTransaction` record of `CrossChainService`. -/
structure BridgeTransaction where
  txHash : String
  sourceChain : String
  targetChain : String
  amount : ℚ
  asset : String
  status : String
  estimatedTime : ℚ
  fee : ℚ
deriving DecidableEq, Repr

/-- Embeds `CrossChainService.estimateBridgeTime` (seconds). -/
def estimateBridgeTimeS (fromChain toChain : String) : ℚ :=
  if fromChain = "ethereum" ∨ toChain = "ethereum" then 900
  else if fromChain = "polygon" ∨ toChain = "polygon" then 600
  else 450

/-- Embeds `CrossChainService.initiateBridge`: throws synchronously exactly when the
source or destination chain has no registered provider (`configured` is the
key set of the `providers` map, which depends on which RPC endpoints the
environment supplies); otherwise returns a pending transaction.  The
generated transaction hash is a parameter. -/
def initiateBridgeS (configured : List String) (txHash : String)
    (p : BridgeParams) : Except String BridgeTransaction :=
  if p.fromChain ∉ configured ∨ p.toChain ∉ configured then
    Except.error
      "Requested bridge chains are not configured. Please set the required RPC endpoints."
  else
    Except.ok
      { txHash := txHash
        sourceChain := p.fromChain
        targetChain := p.toChain
        amount := p.amount
        asset := p.asset
        status := "pending"
        estimatedTime := estimateBridgeTimeS p.fromChain p.toChain
        fee := p.amount * (1 / 1000) }

/-- Embeds `CrossChainService.getBridgeStatus`: a stub that ignores its argument and
always answers the string literal for PENDING. -/
def getBridgeStatusS (txHash : String) : String :=
  let _ := txHash
  "pending"

/-! ## CrossChainOrchestrator balance collection (src/unnamed/part_012) -/

/-- Embeds `getMockMultiChainBalances`, the fallback list returned when any chain
fetch inside `getMultiChainBalances` throws. -/
def mockMultiChainBalances : List CrossChainAsset :=
  [{ symbol := "ETH", amount := 26 / 5, valueUSD := 8320, chain := "ethereum",
     contractAddress := "0x0000000000000000000000000000000000000000", decimals := 18 },
   { symbol := "USDC", amount := 27000, valueUSD := 27000, chain := "ethereum",
     contractAddress := "0xA0b86a33E6411c3fb0a8e5C61b23B7b5B7e34B10", decimals := 6 },
   { symbol := "MATIC", amount := 8000, valueUSD := 3200, chain := "polygon",
     contractAddress := "0x0000000000000000000000000000000000001010", decimals := 18 },
   { symbol := "SOL", amount := 45, valueUSD := 4500, chain := "solana",
     contractAddress := "So11111111111111111111111111111111111111112", decimals := 9 }]

/-- Embeds `CrossChainOrchestrator.getMultiChainBalances` as a function of the
outcome of each per-chain fetch: the four fetches are awaited sequentially
inside one `try` block, so the concatenated assets are returned only when
every fetch succeeds, and any failure lands in the single `catch`, which
discards all fetched data and returns the mock list (there is no per-chain
error map). -/
def getMultiChainBalancesO
    (ethFetch polygonFetch arbitrumFetch solanaFetch :
      Except String (List CrossChainAsset)) : List CrossChainAsset :=
  match ethFetch, polygonFetch, arbitrumFetch, solanaFetch with
  | Except.ok e, Except.ok p, Except.ok a, Except.ok s => e ++ p ++ a ++ s
  | _, _, _, _ => mockMultiChainBalances

/-! ## Helper definitions for the verification -/

/-- Sum of the `totalValueUSD` fields of a list of groups. -/
def groupsValueSum (gs : List AggGroup) : ℚ :=
  (gs.map (fun g => g.totalValueUSD)).sum

/-- Extension of a group by a further list of contributions of its symbol. -/
def extendGroup (g : AggGroup) (l : List CrossChainAsset) : AggGroup :=
  { g with
    totalAmount := g.totalAmount + (l.map (fun a => a.amount)).sum
    totalValueUSD := g.totalValueUSD + (l.map (fun a => a.valueUSD)).sum
    chains := g.chains ++ l.map holdingOf }

/-- The group a list of same-symbol contributions produces: `none` when the
list is empty, otherwise the sums and breakdown of the list. -/
def groupFromAssets (s : String) (l : List CrossChainAsset) : Option AggGroup :=
  if l.isEmpty then none
  else
    some { symbol := s
           totalAmount := (l.map (fun a => a.amount)).sum
           totalValueUSD := (l.map (fun a => a.valueUSD)).sum
           chains := l.map holdingOf }

/-- The order-insensitive content of an aggregated asset: all its fields,
with the chain breakdown as a multiset. -/
def aggProj (x : AggregatedAsset) : ℚ × ℚ × ℚ × JsNum × Multiset ChainHolding :=
  (x.totalAmount, x.totalValueUSD, x.diversificationScore,
    x.percentageOfPortfolio, (x.chains : Multiset ChainHolding))

/-! ## Concrete inputs used by the witnesses and counterexamples -/

/-- The scenario portfolio of the spec, as per-chain assets. -/
def scenarioAssets : List CrossChainAsset :=
  [{ symbol := "ETH", amount := 10, valueUSD := 16000, chain := "ethereum",
     contractAddress := "0x0", decimals := 18 },
   { symbol := "USDC", amount := 10000, valueUSD := 10000, chain := "polygon",
     contractAddress := "0x1", decimals := 6 }]

/-- A single asset of zero USD value: the whole portfolio totals 0. -/
def zeroValueAsset : CrossChainAsset :=
  { symbol := "ETH", amount := 0, valueUSD := 0, chain := "ethereum",
    contractAddress := "0x0000000000000000000000000000000000000000", decimals := 18 }

/-- Two assets with distinct symbols, used to exhibit order dependence. -/
def assetOrderA : CrossChainAsset :=
  { symbol := "ETH", amount := 1, valueUSD := 100, chain := "ethereum",
    contractAddress := "0x0", decimals := 18 }

/-- Second asset for the order-dependence counterexample. -/
def assetOrderB : CrossChainAsset :=
  { symbol := "USDC", amount := 2, valueUSD := 200, chain := "polygon",
    contractAddress := "0x1", decimals := 6 }

/-- The scenario portfolio of the spec as agent asset inputs. -/
def scenarioPortfolio : List AssetInput :=
  [{ symbol := "ETH", amount := some 10, valueUSD := some 16000, percentage := none },
   { symbol := "USDC", amount := some 10000, valueUSD := some 10000, percentage := none }]

/-- The scenario target allocation `ETH 50% / USDC 50%`. -/
def scenarioTargets : List TargetAllocation :=
  [{ symbol := "ETH", targetPercentage := 50 },
   { symbol := "USDC", targetPercentage := 50 }]

/-- A one-asset portfolio holding only ETH on ethereum. -/
def soloEthAsset : CrossChainAsset :=
  { symbol := "ETH", amount := 10, valueUSD := 16000, chain := "ethereum",
    contractAddress := "0x0", decimals := 18 }

/-- The expected ETH change of the rebalancing scenario. -/
def ethScenarioChange : RebalanceChange :=
  { symbol := "ETH", currentValue := 16000, targetValue := 13000,
    difference := -3000, amountUSD := 3000, action := "SELL" }

/-- The expected USDC change of the rebalancing scenario. -/
def usdcScenarioChange : RebalanceChange :=
  { symbol := "USDC", currentValue := 10000, targetValue := 13000,
    difference := 3000, amountUSD := 3000, action := "BUY" }

/-- A two-asset list with zero total USD value where only one asset carries a
provided percentage. -/
def zeroTotalAssets : List Asset :=
  [{ symbol := "A", amount := 0, valueUSD := 0, percentage := none },
   { symbol := "B", amount := 0, valueUSD := 0, percentage := some 30 }]

/-- A concrete native-currency lookup used to instantiate the collector. -/
def witnessNativeCur : String → Option String :=
  fun c => if c = "ethereum" then some "ETH" else none

/-- A concrete fetch outcome where exactly the polygon chain fails. -/
def witnessFetchFail : String → Except String (ℚ × List (String × ℚ)) :=
  fun c => if c = "polygon" then Except.error "timeout" else Except.ok (1, [])

/-- A concrete fetch outcome agreeing with `witnessFetchFail` except on
polygon, where it succeeds. -/
def witnessFetchOk : String → Except String (ℚ × List (String × ℚ)) :=
  fun c => if c = "polygon" then Except.ok (2, [("USDT", 5)]) else Except.ok (1, [])

/-- Concrete parameters of a bridge between two configured chains. -/
def witnessBridgeParams : BridgeParams :=
  { fromChain := "ethereum", toChain := "ethereum", asset := "USDC",
    amount := 5, recipient := "0xrecipient" }

/-- The transaction `initiateBridge` returns for `witnessBridgeParams`. -/
def witnessBridgeTx : BridgeTransaction :=
  { txHash := "0xabc", sourceChain := "ethereum", targetChain := "ethereum",
    amount := 5, asset := "USDC", status := "pending", estimatedTime := 900,
    fee := 1 / 200 }

/-! ## Basic accumulation lemmas -/

theorem foldl_add_eq_sum {α : Type} (f : α → ℚ) (l : List α) (init : ℚ) :
    l.foldl (fun s a => s + f a) init = init + (l.map f).sum := by
  induction l generalizing init with
  | nil => simp
  | cons a l ih => simp [List.foldl_cons, ih]; ring

theorem sum_map_mul_const {α : Type} (f : α → ℚ) (c : ℚ) (l : List α) :
    (l.map (fun x => f x * c)).sum = (l.map f).sum * c := by
  induction l with
  | nil => simp
  | cons a l ih => simp [ih]; ring

theorem jsSum_map_num {α : Type} (f : α → ℚ) (l : List α) :
    jsSum (l.map (fun x => JsNum.num (f x))) = JsNum.num ((l.map f).sum) := by
  suffices h : ∀ c : ℚ,
      (l.map (fun x => JsNum.num (f x))).foldl jsAdd (JsNum.num c)
        = JsNum.num (c + (l.map f).sum) by
    simpa [jsSum] using h 0
  induction l with
  | nil => intro c; simp
  | cons x l ih => intro c; simp [List.foldl_cons, jsAdd, ih]; ring

theorem groupsValueSum_addToGroup (a : CrossChainAsset) (gs : List AggGroup) :
    groupsValueSum (addToGroup a gs) = groupsValueSum gs + a.valueUSD := by
  induction gs with
  | nil => simp [addToGroup, groupsValueSum, mkGroup]
  | cons g gs ih =>
    by_cases h : g.symbol = a.symbol
    · simp [addToGroup, h, groupsValueSum, updGroup]; ring
    · simp only [addToGroup, if_neg h, groupsValueSum, List.map_cons, List.sum_cons] at ih ⊢
      rw [ih]; ring

theorem groupsValueSum_fold (as : List CrossChainAsset) (gs : List AggGroup) :
    groupsValueSum (as.foldl (fun acc a => addToGroup a acc) gs)
      = groupsValueSum gs + (as.map (fun a => a.valueUSD)).sum := by
  induction as generalizing gs with
  | nil => simp
  | cons a as ih =>
    simp only [List.foldl_cons, List.map_cons, List.sum_cons]
    rw [ih, groupsValueSum_addToGroup]; ring

theorem groupsValueSum_aggGroups (as : List CrossChainAsset) :
    groupsValueSum (aggGroups as) = (as.map (fun a => a.valueUSD)).sum := by
  simpa [aggGroups, groupsValueSum] using groupsValueSum_fold as []

/-! ## Projection lemmas for `aggregateBalances` -/

theorem aggregate_total_def (assets : List CrossChainAsset) :
    (aggregateBalances assets).totalValueUSD
      = assets.foldl (fun s a => s + a.valueUSD) 0 := rfl

theorem aggregate_total_eq_sum (assets : List CrossChainAsset) :
    (aggregateBalances assets).totalValueUSD = (assets.map (fun a => a.valueUSD)).sum := by
  rw [aggregate_total_def]
  simpa using foldl_add_eq_sum (fun a => a.valueUSD) assets 0

theorem aggregate_assets_def (assets : List CrossChainAsset) :
    (aggregateBalances assets).aggregatedAssets
      = (aggGroups assets).map
          (decorateGroup (assets.foldl (fun s a => s + a.valueUSD) 0)) := rfl

/-- C1: for every input list of chain assets, the aggregation result
satisfies the portfolio invariant — the returned `totalValueUSD` equals the
sum of `valueUSD` over the inputs and the sum of `totalValueUSD` over the
aggregated assets, and whenever `totalValueUSD > 0` the
`percentageOfPortfolio` values of the aggregated assets sum to exactly 100
(hence well within the ±0.01 floating tolerance). -/
theorem aggregateBalances_portfolio_invariant (assets : List CrossChainAsset) :
    (aggregateBalances assets).totalValueUSD = (assets.map (fun a => a.valueUSD)).sum ∧
    ((aggregateBalances assets).aggregatedAssets.map (fun x => x.totalValueUSD)).sum
      = (aggregateBalances assets).totalValueUSD ∧
    (0 < (aggregateBalances assets).totalValueUSD →
      jsSum ((aggregateBalances assets).aggregatedAssets.map
        (fun x => x.percentageOfPortfolio)) = JsNum.num 100) := by
  refine ⟨aggregate_total_eq_sum assets, ?_, ?_⟩
  · rw [aggregate_assets_def, aggregate_total_def]
    have h1 : ((aggGroups assets).map
        (decorateGroup (assets.foldl (fun s a => s + a.valueUSD) 0))).map
          (fun x => x.totalValueUSD)
        = (aggGroups assets).map (fun g => g.totalValueUSD) := by
      simp [decorateGroup]
    rw [h1]
    have h2 := groupsValueSum_aggGroups assets
    have h3 := foldl_add_eq_sum (fun a => a.valueUSD) assets 0
    simp only [groupsValueSum] at h2
    rw [h2, h3]; ring
  · intro hpos
    rw [aggregate_total_def] at hpos
    rw [aggregate_assets_def]
    set t := assets.foldl (fun s a => s + a.valueUSD) 0 with ht
    have htne : t ≠ 0 := ne_of_gt hpos
    have h1 : ((aggGroups assets).map (decorateGroup t)).map
          (fun x => x.percentageOfPortfolio)
        = (aggGroups assets).map (fun g => JsNum.num (g.totalValueUSD / t * 100)) := by
      simp [decorateGroup, jsMul100, jsDiv, htne]
    rw [h1, jsSum_map_num]
    have h2 : ((aggGroups assets).map (fun g => g.totalValueUSD / t * 100)).sum
        = ((aggGroups assets).map (fun g => g.totalValueUSD)).sum * (100 / t) := by
      have h3 : (fun g : AggGroup => g.totalValueUSD / t * 100)
          = fun g : AggGroup => g.totalValueUSD * (100 / t) := by
        funext g; ring
      rw [h3]
      exact sum_map_mul_const (fun g => g.totalValueUSD) (100 / t) (aggGroups assets)
    rw [h2]
    have h4 : ((aggGroups assets).map (fun g => g.totalValueUSD)).sum = t := by
      have h5 := groupsValueSum_aggGroups assets
      simp only [groupsValueSum] at h5
      rw [h5, ht]
      simpa using (foldl_add_eq_sum (fun a => a.valueUSD) assets 0).symm
    rw [h4]
    congr 1
    field_simp

/-- C1 witness: the invariant instantiated at the spec scenario portfolio,
whose total 26000 is positive. -/
theorem aggregateBalances_portfolio_invariant_witness :
    0 < (aggregateBalances scenarioAssets).totalValueUSD ∧
    (aggregateBalances scenarioAssets).totalValueUSD
      = (scenarioAssets.map (fun a => a.valueUSD)).sum ∧
    jsSum ((aggregateBalances scenarioAssets).aggregatedAssets.map
      (fun x => x.percentageOfPortfolio)) = JsNum.num 100 := by
  have hpos : 0 < (aggregateBalances scenarioAssets).totalValueUSD := by
    rw [aggregate_total_def]
    simp [scenarioAssets]
    norm_num
  exact ⟨hpos, (aggregateBalances_portfolio_invariant scenarioAssets).1,
    (aggregateBalances_portfolio_invariant scenarioAssets).2.2 hpos⟩

/-- C2: on a non-empty input whose USD values sum to 0, `aggregateBalances`
computes `percentageOfPortfolio = (0 / 0) * 100 = NaN`, not 0: evaluation of
the embedded code at the failing input. -/
theorem aggregateBalances_zero_total_yields_nan :
    (aggregateBalances [zeroValueAsset]).totalValueUSD = 0 ∧
    ((aggregateBalances [zeroValueAsset]).aggregatedAssets.map
      (fun x => x.percentageOfPortfolio)) = [JsNum.nan] := by
  constructor
  · rw [aggregate_total_def]; simp [zeroValueAsset]
  · rw [aggregate_assets_def]
    simp [zeroValueAsset, aggGroups, addToGroup, mkGroup, decorateGroup, jsDiv, jsMul100]

/-! ## Characterization of the grouping pass -/

theorem updGroup_symbol (g : AggGroup) (a : CrossChainAsset) :
    (updGroup g a).symbol = g.symbol := rfl

theorem mkGroup_symbol (a : CrossChainAsset) :
    (mkGroup a).symbol = a.symbol := rfl

theorem decorateGroup_symbol (t : ℚ) (g : AggGroup) :
    (decorateGroup t g).symbol = g.symbol := rfl

theorem find?_addToGroup (a : CrossChainAsset) (s : String) (gs : List AggGroup) :
    (addToGroup a gs).find? (fun g => g.symbol = s)
      = if a.symbol = s then
          some ((gs.find? (fun g => g.symbol = s)).elim (mkGroup a)
            (fun g => updGroup g a))
        else gs.find? (fun g => g.symbol = s) := by
  induction gs with
  | nil =>
    by_cases hs : a.symbol = s
    · simp [addToGroup, mkGroup, hs]
    · simp [addToGroup, mkGroup, hs]
  | cons g gs ih =>
    by_cases hga : g.symbol = a.symbol
    · by_cases hs : a.symbol = s
      · have hgs : g.symbol = s := hga.trans hs
        simp [addToGroup, hga, updGroup_symbol, hgs, hs]
      · have hgs : ¬g.symbol = s := fun h => hs (hga ▸ h)
        simp [addToGroup, hga, updGroup_symbol, hgs, hs]
    · by_cases hgs : g.symbol = s
      · have hs : ¬a.symbol = s := fun h => hga (hgs.trans h.symm)
        have hsa : ¬s = a.symbol := fun h => hs h.symm
        simp [addToGroup, hga, hgs, hs, hsa]
      · simp [addToGroup, hga, hgs, ih]

theorem extendGroup_nil (g : AggGroup) : extendGroup g [] = g := by
  simp [extendGroup]

theorem extendGroup_updGroup (g : AggGroup) (a : CrossChainAsset)
    (l : List CrossChainAsset) :
    extendGroup (updGroup g a) l = extendGroup g (a :: l) := by
  simp [extendGroup, updGroup, add_assoc]

theorem extendGroup_mkGroup (a : CrossChainAsset) (l : List CrossChainAsset)
    (s : String) (hs : a.symbol = s) :
    some (extendGroup (mkGroup a) l) = groupFromAssets s (a :: l) := by
  simp [extendGroup, mkGroup, groupFromAssets, hs]

theorem find?_aggFold (s : String) (as : List CrossChainAsset) (gs : List AggGroup) :
    ((as.foldl (fun acc a => addToGroup a acc) gs).find? (fun g => g.symbol = s))
      = (gs.find? (fun g => g.symbol = s)).elim
          (groupFromAssets s (as.filter (fun a => a.symbol = s)))
          (fun g => some (extendGroup g (as.filter (fun a => a.symbol = s)))) := by
  induction as generalizing gs with
  | nil =>
    cases hgs : gs.find? (fun g => g.symbol = s) with
    | none => simp [hgs, groupFromAssets]
    | some g => simp [hgs, extendGroup_nil]
  | cons a as ih =>
    simp only [List.foldl_cons]
    rw [ih (addToGroup a gs), find?_addToGroup]
    by_cases hs : a.symbol = s
    · cases hgs : gs.find? (fun g => g.symbol = s) with
      | none =>
        simp only [hs, hgs, if_true, List.filter_cons, decide_eq_true_eq,
          Option.elim_none, Option.elim_some]
        rw [extendGroup_mkGroup a _ s hs]
      | some g =>
        simp only [hs, hgs, if_true, List.filter_cons, decide_eq_true_eq,
          Option.elim_some]
        rw [extendGroup_updGroup]
    · simp [hs]

theorem find?_aggGroups (s : String) (as : List CrossChainAsset) :
    (aggGroups as).find? (fun g => g.symbol = s)
      = groupFromAssets s (as.filter (fun a => a.symbol = s)) := by
  simpa [aggGroups] using find?_aggFold s as []

theorem find?_map_decorateGroup (t : ℚ) (s : String) (gs : List AggGroup) :
    ((gs.map (decorateGroup t)).find? (fun x => x.symbol = s))
      = (gs.find? (fun g => g.symbol = s)).map (decorateGroup t) := by
  induction gs with
  | nil => simp
  | cons g gs ih =>
    by_cases h : g.symbol = s
    · simp [decorateGroup_symbol, h]
    · simp [decorateGroup_symbol, h, ih]

/-! ## Symbol lists of the grouping pass -/

theorem symbols_addToGroup (a : CrossChainAsset) (gs : List AggGroup) :
    (addToGroup a gs).map (fun g => g.symbol)
      = if a.symbol ∈ gs.map (fun g => g.symbol) then gs.map (fun g => g.symbol)
        else gs.map (fun g => g.symbol) ++ [a.symbol] := by
  induction gs with
  | nil => simp [addToGroup, mkGroup]
  | cons g gs ih =>
    by_cases h : g.symbol = a.symbol
    · simp [addToGroup, h, updGroup_symbol]
    · by_cases hmem : a.symbol ∈ gs.map (fun g => g.symbol)
      · simp [addToGroup, h, ih, hmem, Ne.symm h]
      · simp [addToGroup, h, ih, hmem, Ne.symm h]

theorem mem_symbols_addToGroup (x : String) (a : CrossChainAsset)
    (gs : List AggGroup) :
    (x ∈ (addToGroup a gs).map (fun g => g.symbol))
      ↔ x ∈ gs.map (fun g => g.symbol) ∨ x = a.symbol := by
  rw [symbols_addToGroup]
  by_cases hmem : a.symbol ∈ gs.map (fun g => g.symbol)
  · simp only [hmem, if_true]
    constructor
    · exact fun h => Or.inl h
    · rintro (h | h)
      · exact h
      · exact h ▸ hmem
  · simp [hmem]

theorem mem_symbols_fold (x : String) (as : List CrossChainAsset)
    (gs : List AggGroup) :
    (x ∈ ((as.foldl (fun acc a => addToGroup a acc) gs).map (fun g => g.symbol)))
      ↔ x ∈ gs.map (fun g => g.symbol) ∨ x ∈ as.map (fun a => a.symbol) := by
  induction as generalizing gs with
  | nil => simp
  | cons a as ih =>
    simp only [List.foldl_cons, List.map_cons, List.mem_cons]
    rw [ih, mem_symbols_addToGroup]
    tauto

theorem symbols_nodup_fold (as : List CrossChainAsset) (gs : List AggGroup)
    (h : (gs.map (fun g => g.symbol)).Nodup) :
    ((as.foldl (fun acc a => addToGroup a acc) gs).map (fun g => g.symbol)).Nodup := by
  induction as generalizing gs with
  | nil => exact h
  | cons a as ih =>
    simp only [List.foldl_cons]
    apply ih
    rw [symbols_addToGroup]
    by_cases hmem : a.symbol ∈ gs.map (fun g => g.symbol)
    · simpa [hmem] using h
    · simp [hmem, List.nodup_append, h]

theorem uniqueAssets_eq_card (as : List CrossChainAsset) :
    (aggregateBalances as).uniqueAssets = ((as.map (fun a => a.symbol)).toFinset).card := by
  have h1 : (aggregateBalances as).uniqueAssets = (aggGroups as).length := rfl
  have h2 : (aggGroups as).length = ((aggGroups as).map (fun g => g.symbol)).length := by
    simp
  have h3 : ((aggGroups as).map (fun g => g.symbol)).Nodup := by
    simpa [aggGroups] using symbols_nodup_fold as [] (by simp)
  have h4 : ((aggGroups as).map (fun g => g.symbol)).toFinset
      = (as.map (fun a => a.symbol)).toFinset := by
    ext x
    simp only [List.mem_toFinset]
    simpa [aggGroups] using mem_symbols_fold x as []
  rw [h1, h2, ← List.toFinset_card_of_nodup h3, h4]

/-! ## Permutation invariance of the aggregation content -/

theorem rating_def (as : List CrossChainAsset) :
    (aggregateBalances as).diversificationRating
      = (if (aggregateBalances as).uniqueAssets > 5 then "High"
         else if (aggregateBalances as).uniqueAssets > 3 then "Medium"
         else "Low") := rfl

theorem groupFromAssets_perm_proj (t : ℚ) (s : String)
    {l l' : List CrossChainAsset} (h : l.Perm l') :
    (groupFromAssets s l').map (fun g => aggProj (decorateGroup t g))
      = (groupFromAssets s l).map (fun g => aggProj (decorateGroup t g)) := by
  have hAmount : (l'.map (fun a => a.amount)).sum = (l.map (fun a => a.amount)).sum :=
    ((h.map (fun a => a.amount)).sum_eq).symm
  have hValue : (l'.map (fun a => a.valueUSD)).sum = (l.map (fun a => a.valueUSD)).sum :=
    ((h.map (fun a => a.valueUSD)).sum_eq).symm
  have hLen : l'.length = l.length := h.length_eq.symm
  have hMs : ((l'.map holdingOf : List ChainHolding) : Multiset ChainHolding)
      = ((l.map holdingOf : List ChainHolding) : Multiset ChainHolding) :=
    Multiset.coe_eq_coe.mpr ((h.map holdingOf).symm)
  by_cases hl : l = []
  · subst hl
    have hl' : l' = [] := h.symm.eq_nil
    subst hl'
    rfl
  · have hl' : l' ≠ [] := fun hc => hl ((hc ▸ h).eq_nil)
    simp only [groupFromAssets, List.isEmpty_iff, hl, hl', if_false,
      Option.map_some, aggProj, decorateGroup]
    rw [hAmount, hValue]
    simp only [Option.map_some', List.length_map]
    rw [hLen, hMs]

/-- C4 counterexample: swapping two assets with distinct symbols permutes the
input but changes the result of `aggregateBalances` — the JavaScript `Map`
emits aggregated assets in first-occurrence order and the source never sorts,
so the claimed equality `Aggregate(shuffle(list)) == Aggregate(list)` fails
at this concrete input. -/
theorem aggregateBalances_not_order_independent :
    ([assetOrderA, assetOrderB].Perm [assetOrderB, assetOrderA]) ∧
    aggregateBalances [assetOrderA, assetOrderB]
      ≠ aggregateBalances [assetOrderB, assetOrderA] := by
  refine ⟨List.Perm.swap assetOrderB assetOrderA [], ?_⟩
  intro hEq
  have hsym := congrArg
    (fun r => r.aggregatedAssets.map (fun x => x.symbol)) hEq
  simp [aggregateBalances, assetOrderA, assetOrderB, aggGroups, addToGroup,
    mkGroup, updGroup, decorateGroup] at hsym

/-- C4 amended: aggregation is order-independent up to the order of the
emitted lists — for every permutation of the input, `aggregateBalances`
returns the same `totalValueUSD`, `uniqueAssets`, `chainsUsed` and
`diversificationRating`, and per symbol the same totals, diversification
score, percentage and chain-breakdown multiset; only the order of
`aggregatedAssets` (first-occurrence order) and of each `chainBreakdown`
differs. -/
theorem aggregateBalances_perm_invariant (as as' : List CrossChainAsset)
    (h : as.Perm as') :
    (aggregateBalances as').totalValueUSD = (aggregateBalances as).totalValueUSD ∧
    (aggregateBalances as').uniqueAssets = (aggregateBalances as).uniqueAssets ∧
    (aggregateBalances as').chainsUsed = (aggregateBalances as).chainsUsed ∧
    (aggregateBalances as').diversificationRating
      = (aggregateBalances as).diversificationRating ∧
    ∀ s, ((aggregateBalances as').aggregatedAssets.find?
            (fun x => x.symbol = s)).map aggProj
         = ((aggregateBalances as).aggregatedAssets.find?
            (fun x => x.symbol = s)).map aggProj := by
  have htot : (aggregateBalances as').totalValueUSD
      = (aggregateBalances as).totalValueUSD := by
    rw [aggregate_total_eq_sum, aggregate_total_eq_sum]
    exact ((h.map (fun a => a.valueUSD)).sum_eq).symm
  have huniq : (aggregateBalances as').uniqueAssets
      = (aggregateBalances as).uniqueAssets := by
    rw [uniqueAssets_eq_card, uniqueAssets_eq_card]
    rw [List.toFinset_eq_of_perm _ _ (h.map (fun a => a.symbol))]
  refine ⟨htot, huniq, ?_, ?_, ?_⟩
  · show chainsUsedCount as' = chainsUsedCount as
    unfold chainsUsedCount
    exact ((h.map (fun a => a.chain)).dedup).length_eq.symm
  · rw [rating_def, rating_def, huniq]
  · intro s
    have hfold : as'.foldl (fun s a => s + a.valueUSD) 0
        = as.foldl (fun s a => s + a.valueUSD) 0 := by
      have := htot
      rw [aggregate_total_def, aggregate_total_def] at this
      exact this
    rw [aggregate_assets_def, aggregate_assets_def, hfold,
      find?_map_decorateGroup, find?_map_decorateGroup,
      find?_aggGroups, find?_aggGroups]
    rw [Option.map_map, Option.map_map]
    exact groupFromAssets_perm_proj _ s (h.filter (fun a => a.symbol = s))

/-- C4 amended witness: the invariance instantiated at the swapped two-asset
list, with the per-symbol equality read off at the symbol ETH. -/
theorem aggregateBalances_perm_invariant_witness :
    (aggregateBalances [assetOrderB, assetOrderA]).totalValueUSD
      = (aggregateBalances [assetOrderA, assetOrderB]).totalValueUSD ∧
    (aggregateBalances [assetOrderB, assetOrderA]).uniqueAssets
      = (aggregateBalances [assetOrderA, assetOrderB]).uniqueAssets ∧
    (aggregateBalances [assetOrderB, assetOrderA]).chainsUsed
      = (aggregateBalances [assetOrderA, assetOrderB]).chainsUsed ∧
    (aggregateBalances [assetOrderB, assetOrderA]).diversificationRating
      = (aggregateBalances [assetOrderA, assetOrderB]).diversificationRating ∧
    ((aggregateBalances [assetOrderB, assetOrderA]).aggregatedAssets.find?
        (fun x => x.symbol = "ETH")).map aggProj
      = ((aggregateBalances [assetOrderA, assetOrderB]).aggregatedAssets.find?
        (fun x => x.symbol = "ETH")).map aggProj := by
  have hp : [assetOrderA, assetOrderB].Perm [assetOrderB, assetOrderA] :=
    List.Perm.swap assetOrderB assetOrderA []
  have main := aggregateBalances_perm_invariant [assetOrderA, assetOrderB]
    [assetOrderB, assetOrderA] hp
  exact ⟨main.1, main.2.1, main.2.2.1, main.2.2.2.1, main.2.2.2.2 "ETH"⟩

/-! ## Rebalancing claims -/

/-- C5: every proposed change of `simulateRebalancing` has
`difference = targetValue - currentValue`, `amountUSD = |difference|` and the
action BUY / SELL / HOLD determined by the fixed absolute threshold 10; in
particular, on the scenario portfolio with target 50/50, ETH is a SELL of
3000 USD and USDC a BUY of 3000 USD. -/
theorem simulateRebalancing_action_rule :
    (∀ (portfolio : List AssetInput) (targets : List TargetAllocation)
       (c : RebalanceChange), c ∈ simulateChanges portfolio targets →
         c.difference = c.targetValue - c.currentValue ∧
         c.amountUSD = |c.difference| ∧
         c.action = (if c.difference > 10 then "BUY"
                     else if c.difference < -10 then "SELL" else "HOLD")) ∧
    simulateChanges scenarioPortfolio scenarioTargets
      = [ethScenarioChange, usdcScenarioChange] := by
  constructor
  · intro portfolio targets c hc
    simp only [simulateChanges, List.mem_map] at hc
    obtain ⟨t, _, rfl⟩ := hc
    exact ⟨rfl, rfl, rfl⟩
  · simp [simulateChanges, scenarioPortfolio, scenarioTargets,
      normalizeAssetInputs, sumValueUSD, ethScenarioChange, usdcScenarioChange]
    norm_num

/-- C5 witness: the action rule read off at the concrete ETH change of the
scenario. -/
theorem simulateRebalancing_action_rule_witness :
    ethScenarioChange.difference
      = ethScenarioChange.targetValue - ethScenarioChange.currentValue ∧
    ethScenarioChange.amountUSD = |ethScenarioChange.difference| ∧
    ethScenarioChange.action
      = (if ethScenarioChange.difference > 10 then "BUY"
         else if ethScenarioChange.difference < -10 then "SELL" else "HOLD") := by
  have hmem : ethScenarioChange ∈ simulateChanges scenarioPortfolio scenarioTargets := by
    rw [simulateRebalancing_action_rule.2]
    exact List.mem_cons_self _ _
  exact simulateRebalancing_action_rule.1 scenarioPortfolio scenarioTargets _ hmem

/-- C6 counterexample: with a portfolio holding only ETH, the target symbol
DOGE is absent from the aggregated portfolio and
`rebalanceAcrossChains` returns an empty operations list — no HOLD entry for
DOGE is produced, contradicting the claim that an entry is still returned. -/
theorem rebalanceAcrossChains_absent_symbol_omitted :
    ((aggregateBalances [soloEthAsset]).aggregatedAssets.find?
      (fun x => x.symbol = "DOGE")) = none ∧
    rebalanceOps [soloEthAsset] [("DOGE", 50)] = [] := by
  constructor
  · simp [aggregateBalances, soloEthAsset, aggGroups, addToGroup, mkGroup,
      decorateGroup]
  · simp [rebalanceOps, rebalanceStep, soloEthAsset, aggregateBalances,
      aggGroups, addToGroup, mkGroup, decorateGroup]

theorem rebalanceStep_fold_asset_ne (agg : AggregationResult) (s : String)
    (hnone : agg.aggregatedAssets.find? (fun x => x.symbol = s) = none) :
    ∀ (ts : List (String × ℚ)) (acc : List RebalanceOp),
      (∀ op ∈ acc, op.asset ≠ s) →
      ∀ op ∈ ts.foldl (rebalanceStep agg) acc, op.asset ≠ s := by
  intro ts
  induction ts with
  | nil => intro acc hacc op hop; exact hacc op hop
  | cons e ts ih =>
    intro acc hacc
    simp only [List.foldl_cons]
    apply ih
    intro op hop
    simp only [rebalanceStep] at hop
    cases hfind : agg.aggregatedAssets.find? (fun a => a.symbol = e.1) with
    | none =>
      rw [hfind] at hop
      exact hacc op hop
    | some ca =>
      rw [hfind] at hop
      dsimp only at hop
      split at hop
      · rcases List.mem_append.mp hop with hmem | hmem
        · exact hacc op hmem
        · simp only [List.mem_singleton] at hmem
          subst hmem
          intro hcontra
          simp only at hcontra
          rw [hcontra] at hfind
          rw [hnone] at hfind
          exact Option.noConfusion hfind
      · exact hacc op hop

/-- C6 amended: the planner never fails the whole plan, but the handling of
an absent target symbol differs from the claim —
`rebalanceAcrossChains` omits the symbol entirely (no operation with that
symbol appears in the plan), while `simulateRebalancing` does return one
entry per target symbol, using `currentValue = 0` for an absent symbol, with
the action derived from the difference by the usual threshold rule
(so BUY when the target value exceeds 10 USD, not a forced HOLD). -/
theorem rebalance_absent_symbol_behavior :
    (∀ (assets : List CrossChainAsset) (targets : List (String × ℚ)) (s : String),
       ((aggregateBalances assets).aggregatedAssets.find?
         (fun x => x.symbol = s)) = none →
       ∀ op ∈ rebalanceOps assets targets, op.asset ≠ s) ∧
    (∀ (portfolio : List AssetInput) (targets : List TargetAllocation),
       (simulateChanges portfolio targets).map (fun c => c.symbol)
         = targets.map (fun t => t.symbol)) ∧
    (∀ (portfolio : List AssetInput) (targets : List TargetAllocation)
       (t : TargetAllocation), t ∈ targets →
       (normalizeAssetInputs portfolio).find? (fun a => a.symbol = t.symbol) = none →
       ∃ c ∈ simulateChanges portfolio targets,
         c.symbol = t.symbol ∧ c.currentValue = 0) := by
  refine ⟨?_, ?_, ?_⟩
  · intro assets targets s hnone
    exact rebalanceStep_fold_asset_ne (aggregateBalances assets) s hnone
      targets [] (by simp)
  · intro portfolio targets
    simp only [simulateChanges, List.map_map]
    rfl
  · intro portfolio targets t ht hfind
    refine ⟨_, List.mem_map_of_mem _ ht, rfl, ?_⟩
    simp only [hfind]

/-- C6 amended witness: against the scenario portfolio, the single target
symbol DOGE (absent from the portfolio) still yields exactly one proposed
change, with current value 0. -/
theorem rebalance_absent_symbol_behavior_witness :
    (simulateChanges scenarioPortfolio
      [{ symbol := "DOGE", targetPercentage := 50 }]).map (fun c => c.symbol)
      = ["DOGE"] ∧
    ∃ c ∈ simulateChanges scenarioPortfolio
      [{ symbol := "DOGE", targetPercentage := 50 }],
      c.symbol = "DOGE" ∧ c.currentValue = 0 := by
  constructor
  · exact rebalance_absent_symbol_behavior.2.1 scenarioPortfolio
      [{ symbol := "DOGE", targetPercentage := 50 }]
  · exact rebalance_absent_symbol_behavior.2.2 scenarioPortfolio
      [{ symbol := "DOGE", targetPercentage := 50 }]
      { symbol := "DOGE", targetPercentage := 50 }
      (List.mem_singleton.mpr rfl)
      (by simp [normalizeAssetInputs, scenarioPortfolio])

/-! ## Portfolio analysis claims -/

/-- C9: `analyzePortfolio` rejects the empty asset list — the
alert-identification `reduce` with no initial value throws, so the call fails
with an error instead of returning an analysis. -/
theorem analyzePortfolio_rejects_empty :
    analyzePortfolio [] = Except.error "Reduce of empty array with no initial value" := rfl

/-- C10: for a non-empty asset list with zero total USD value,
`ensurePercentages` (the percentage backfill of `analyzePortfolio`) gives
every asset without a provided percentage the equal share `100 / n` and keeps
provided percentages; when every percentage is provided the list is returned
unchanged; and a successful `analyzePortfolio` returns exactly the backfilled
assets. -/
theorem ensurePercentages_zero_total (assets : List Asset)
    (h0 : sumValueUSD assets = 0) (hne : assets ≠ []) :
    (assets.any (fun a => a.percentage.isNone) →
       ensurePercentages assets = assets.map (fun a =>
         { a with percentage := some (a.percentage.getD (100 / (assets.length : ℚ))) })) ∧
    (assets.all (fun a => a.percentage.isSome) → ensurePercentages assets = assets) ∧
    (∀ (input : List AssetInput) (analysis : PortfolioAnalysis),
       analyzePortfolio input = Except.ok analysis →
       analysis.assets = ensurePercentages (normalizeAssetInputs input)) := by
  have hnotpos : ¬(0 < sumValueUSD assets) := by rw [h0]; exact lt_irrefl 0
  have hlen : assets.length > 0 := List.length_pos.mpr hne
  refine ⟨?_, ?_, ?_⟩
  · intro hany
    have hnotall : ¬(assets.all (fun a => a.percentage.isSome) = true) := by
      simp only [List.all_eq_true, List.any_eq_true] at hany ⊢
      obtain ⟨a, ha, hnone⟩ := hany
      intro hall
      have hsome := hall a ha
      rw [Option.isNone_iff_eq_none] at hnone
      rw [hnone] at hsome
      exact Option.noConfusion (Option.isSome_iff_exists.mp hsome).choose_spec
    simp only [ensurePercentages, if_neg hnotpos, if_neg hnotall, if_pos hlen]
  · intro hall
    simp only [ensurePercentages, if_neg hnotpos, if_pos hall]
  · intro input analysis hok
    simp only [analyzePortfolio] at hok
    cases halerts : identifyAlerts (ensurePercentages (normalizeAssetInputs input)) with
    | error e => rw [halerts] at hok; exact Except.noConfusion hok
    | ok alerts =>
      rw [halerts] at hok
      cases hok
      rfl

/-- C10 witness: on the concrete zero-total list, the asset without a
percentage receives the equal share 50 and the provided percentage 30 is kept. -/
theorem ensurePercentages_zero_total_witness :
    ensurePercentages zeroTotalAssets =
      [{ symbol := "A", amount := 0, valueUSD := 0, percentage := some 50 },
       { symbol := "B", amount := 0, valueUSD := 0, percentage := some 30 }] := by
  have h := (ensurePercentages_zero_total zeroTotalAssets
    (by simp [sumValueUSD, zeroTotalAssets])
    (by simp [zeroTotalAssets])).1 (by simp [zeroTotalAssets])
  rw [h]
  simp [zeroTotalAssets]
  norm_num

/-! ## Balance collection claims -/

/-- C3 counterexample: in `CrossChainOrchestrator.getMultiChainBalances`, a
polygon failure makes the call return the fixed mock list, so the
non-polygon asset data differs from the run where polygon succeeds — the
other chains are not unaffected and no per-chain error entry exists. -/
theorem getMultiChainBalances_failure_not_isolated :
    getMultiChainBalancesO (Except.ok [soloEthAsset]) (Except.error "timeout")
        (Except.ok []) (Except.ok []) = mockMultiChainBalances ∧
    (getMultiChainBalancesO (Except.ok [soloEthAsset]) (Except.error "timeout")
        (Except.ok []) (Except.ok [])).filter (fun a => a.chain ≠ "polygon")
      ≠ (getMultiChainBalancesO (Except.ok [soloEthAsset]) (Except.ok [])
        (Except.ok []) (Except.ok [])).filter (fun a => a.chain ≠ "polygon") := by
  constructor
  · rfl
  · intro h
    have hlen := congrArg List.length h
    simp [getMultiChainBalancesO, mockMultiChainBalances, soloEthAsset] at hlen

/-- C3 amended: per-chain failure isolation holds for
`CrossChainService.getMultiChainBalance` — each chain entry depends only on
that chain fetch, a failing chain yields the error entry with no assets, and
every configured chain still receives a slot — while
`CrossChainOrchestrator.getMultiChainBalances` instead discards all fetched
data on any failure and falls back to the mock portfolio. -/
theorem getMultiChainBalance_per_chain_isolation :
    (∀ (nativeCur : String → Option String)
       (fetch fetch' : String → Except String (ℚ × List (String × ℚ)))
       (failing c : String),
       (∀ d, d ≠ failing → fetch d = fetch' d) → c ≠ failing →
       chainBalanceEntry nativeCur fetch c = chainBalanceEntry nativeCur fetch' c) ∧
    (∀ (nativeCur : String → Option String)
       (fetch : String → Except String (ℚ × List (String × ℚ)))
       (c err : String), fetch c = Except.error err →
       chainBalanceEntry nativeCur fetch c
         = { native := none, tokens := [],
             error := some "Failed to fetch balances" }) ∧
    (∀ (chains : List String) (nativeCur : String → Option String)
       (fetch : String → Except String (ℚ × List (String × ℚ))),
       (getMultiChainBalanceS chains nativeCur fetch).map Prod.fst = chains) ∧
    (∀ (ethFetch arbitrumFetch solanaFetch : Except String (List CrossChainAsset))
       (msg : String),
       getMultiChainBalancesO ethFetch (Except.error msg) arbitrumFetch solanaFetch
         = mockMultiChainBalances) := by
  refine ⟨?_, ?_, ?_, ?_⟩
  · intro nativeCur fetch fetch' failing c hagree hc
    unfold chainBalanceEntry
    rw [hagree c hc]
  · intro nativeCur fetch c err herr
    unfold chainBalanceEntry
    rw [herr]
  · intro chains nativeCur fetch
    induction chains with
    | nil => rfl
    | cons c cs ih =>
      simp only [getMultiChainBalanceS, List.map_cons] at ih ⊢
      rw [ih]
  · intro ethFetch arbitrumFetch solanaFetch msg
    cases ethFetch <;> cases arbitrumFetch <;> cases solanaFetch <;> rfl

/-- C3 amended witness: with only polygon failing, the ethereum entry is the
same as in the run where polygon succeeds, the polygon entry is the error
record, and both chains keep their slots. -/
theorem getMultiChainBalance_per_chain_isolation_witness :
    chainBalanceEntry witnessNativeCur witnessFetchFail "ethereum"
      = chainBalanceEntry witnessNativeCur witnessFetchOk "ethereum" ∧
    chainBalanceEntry witnessNativeCur witnessFetchFail "polygon"
      = { native := none, tokens := [], error := some "Failed to fetch balances" } ∧
    (getMultiChainBalanceS ["ethereum", "polygon"] witnessNativeCur
      witnessFetchFail).map Prod.fst = ["ethereum", "polygon"] := by
  refine ⟨?_, ?_, ?_⟩
  · exact getMultiChainBalance_per_chain_isolation.1 witnessNativeCur
      witnessFetchFail witnessFetchOk "polygon" "ethereum"
      (fun d hd => by simp [witnessFetchFail, witnessFetchOk, hd]) (by simp)
  · exact getMultiChainBalance_per_chain_isolation.2.1 witnessNativeCur
      witnessFetchFail "polygon" "timeout" (by simp [witnessFetchFail])
  · exact getMultiChainBalance_per_chain_isolation.2.2.1
      ["ethereum", "polygon"] witnessNativeCur witnessFetchFail

/-! ## Bridge claims -/

/-- C7 counterexample: solana has no registered chain config or provider in
the orchestrator, yet `CrossChainOrchestrator.initiateBridge` does not fail —
it synchronously returns a PENDING operation with fallback-table fees,
contradicting the claimed `ChainNotConfigured` failure. -/
theorem initiateBridge_no_config_check :
    ("solana" ∉ orchestratorConfiguredChains) ∧
    initiateBridgeO "bridge_1" "solana" "polygon" "USDC" 1000
      = { id := "bridge_1", fromChain := "solana", toChain := "polygon",
          asset := "USDC", amount := 1000, estimatedTime := "5-8 minutes",
          fees := { networkFee := 1 / 1000, bridgeFee := 1, gasFee := 1 / 200,
                    total := 503 / 500 },
          status := BridgeStatus.pending, transactionHash := none } := by
  constructor
  · simp [orchestratorConfiguredChains]
  · simp [initiateBridgeO, calculateBridgeFees, getNetworkFee, getGasFee,
      getEstimatedBridgeTime]
    norm_num

/-- C7 amended: `CrossChainService.initiateBridge` fails synchronously if and
only if the source or destination chain lacks a registered provider, and this
is its only synchronous failure mode (a success always carries status
PENDING); `CrossChainOrchestrator.initiateBridge` performs no configuration
check and never fails synchronously for any pair of chain names. -/
theorem initiateBridge_sync_failure_modes :
    (∀ (configured : List String) (txHash : String) (p : BridgeParams),
       (∃ e, initiateBridgeS configured txHash p = Except.error e)
         ↔ (p.fromChain ∉ configured ∨ p.toChain ∉ configured)) ∧
    (∀ (configured : List String) (txHash : String) (p : BridgeParams)
       (bt : BridgeTransaction),
       initiateBridgeS configured txHash p = Except.ok bt → bt.status = "pending") ∧
    (∀ (bridgeId fromChain toChain asset : String) (amount : ℚ),
       (initiateBridgeO bridgeId fromChain toChain asset amount).status
         = BridgeStatus.pending) := by
  refine ⟨?_, ?_, ?_⟩
  · intro configured txHash p
    constructor
    · rintro ⟨e, he⟩
      by_contra hc
      push_neg at hc
      simp [initiateBridgeS, hc.1, hc.2] at he
    · intro hmiss
      refine ⟨"Requested bridge chains are not configured. Please set the required RPC endpoints.", ?_⟩
      unfold initiateBridgeS
      rw [if_pos hmiss]
  · intro configured txHash p bt hok
    simp only [initiateBridgeS] at hok
    split at hok
    · exact Except.noConfusion hok
    · simp only [Except.ok.injEq] at hok
      subst hok
      rfl
  · intro bridgeId fromChain toChain asset amount
    rfl

/-- C7 amended witness: bridging between two configured chains succeeds
synchronously and the returned transaction is PENDING. -/
theorem initiateBridge_sync_failure_modes_witness :
    witnessBridgeTx.status = "pending" := by
  refine initiateBridge_sync_failure_modes.2.1 ["ethereum"] "0xabc"
    witnessBridgeParams witnessBridgeTx ?_
  simp [initiateBridgeS, witnessBridgeParams, witnessBridgeTx, estimateBridgeTimeS]
  norm_num

/-- C8 counterexample: after dispatch the operation status field is
IN_PROGRESS, but `CrossChainService.getBridgeStatus` is a stub returning the
PENDING literal for every id — so the transition is not observable through
`GetBridgeStatus`, contradicting the observability conjunct of the claim. -/
theorem getBridgeStatus_not_observable :
    bridgeStatusAtPhase 1 = BridgeStatus.inProgress ∧
    getBridgeStatusS "bridge_1" = "pending" ∧
    statusLiteral BridgeStatus.inProgress ≠ "pending" := by
  refine ⟨rfl, rfl, ?_⟩
  simp [statusLiteral]

/-- C8 amended: every operation returned by `initiateBridge` starts PENDING,
and along the simulated timer progression the status moves monotonically
PENDING → IN_PROGRESS → COMPLETED: every consecutive step is an allowed
lifecycle transition, PENDING is never re-entered, terminal states are never
left, and no step jumps from PENDING directly to a terminal state. The
transitions are, however, not observable via `GetBridgeStatus`, which
returns PENDING for every id. -/
theorem bridge_lifecycle_monotonic :
    (∀ (bridgeId fromChain toChain asset : String) (amount : ℚ),
       (initiateBridgeO bridgeId fromChain toChain asset amount).status
         = BridgeStatus.pending) ∧
    bridgeStatusAtPhase 0 = BridgeStatus.pending ∧
    (∀ i, allowedBridgeStep (bridgeStatusAtPhase i) (bridgeStatusAtPhase (i + 1))) ∧
    (∀ i, 1 ≤ i → bridgeStatusAtPhase i ≠ BridgeStatus.pending) ∧
    (∀ i j, i ≤ j → isTerminalStatus (bridgeStatusAtPhase i) →
       bridgeStatusAtPhase j = bridgeStatusAtPhase i) ∧
    (∀ i, bridgeStatusAtPhase i = BridgeStatus.pending →
       ¬isTerminalStatus (bridgeStatusAtPhase (i + 1))) ∧
    (∀ txHash, getBridgeStatusS txHash = "pending") := by
  refine ⟨fun _ _ _ _ _ => rfl, rfl, ?_, ?_, ?_, ?_, fun _ => rfl⟩
  · intro i
    rcases i with _ | _ | n
    · exact Or.inr (Or.inl ⟨rfl, rfl⟩)
    · exact Or.inr (Or.inr ⟨rfl, Or.inl rfl⟩)
    · exact Or.inl rfl
  · intro i hi
    rcases i with _ | _ | n
    · exact absurd hi (by decide)
    · simp [bridgeStatusAtPhase]
    · simp [bridgeStatusAtPhase]
  · intro i j hij hterm
    rcases i with _ | _ | n
    · rcases hterm with h | h <;> simp [bridgeStatusAtPhase, isTerminalStatus] at h
    · rcases hterm with h | h <;> simp [bridgeStatusAtPhase, isTerminalStatus] at h
    · rcases j with _ | _ | m
      · omega
      · omega
      · rfl
  · intro i hp
    rcases i with _ | _ | n
    · rintro (h | h) <;> simp [bridgeStatusAtPhase] at h
    · simp [bridgeStatusAtPhase] at hp
    · simp [bridgeStatusAtPhase] at hp

/-- C8 amended witness: concrete lifecycle facts — the dispatch step 0 → 1 is
allowed, phase 5 still equals the terminal phase 2, phase 1 is not terminal,
a freshly initiated operation is PENDING, and the status stub answers
PENDING. -/
theorem bridge_lifecycle_monotonic_witness :
    allowedBridgeStep (bridgeStatusAtPhase 0) (bridgeStatusAtPhase 1) ∧
    bridgeStatusAtPhase 5 = bridgeStatusAtPhase 2 ∧
    ¬isTerminalStatus (bridgeStatusAtPhase 1) ∧
    (initiateBridgeO "bridge_1" "ethereum" "polygon" "USDC" 1000).status
      = BridgeStatus.pending ∧
    getBridgeStatusS "bridge_1" = "pending" := by
  refine ⟨?_, ?_, ?_, ?_, ?_⟩
  · exact bridge_lifecycle_monotonic.2.2.1 0
  · exact bridge_lifecycle_monotonic.2.2.2.2.1 2 5 (by norm_num) (Or.inl rfl)
  · exact bridge_lifecycle_monotonic.2.2.2.2.2.1 0 rfl
  · exact bridge_lifecycle_monotonic.1 "bridge_1" "ethereum" "polygon" "USDC" 1000
  · exact bridge_lifecycle_monotonic.2.2.2.2.2.2 "bridge_1"

end PrivacyTreasury


